import Mathlib

/-!
Shallow embedding of the APEX detection orchestrator
(`server/services/detectionOrchestrator.js`) and its Tier A rule pass
(`server/services/detectionTierA.js`).

JavaScript conventions are made explicit:
* `null`/`undefined` string fields become `Option String`;
* `x || y` on strings treats `""` as falsy (`jsOr`);
* `x ?? y` is `Option.orElse` (only nullish falls through);
* a tier-supplied numeric field is `Option Int`, `none` standing for a
  value that is missing or fails `Number.isFinite`;
* a thrown exception is represented by its captured message, the string
  the orchestrator stores via `String(err?.message || err)`.
-/

namespace ApexDetection

/-- JS `x || y` on nullable strings: `""` and `null` both fall through. -/
def jsOr (x y : Option String) : Option String :=
  match x with
  | some s => if s = "" then y else some s
  | none => y

/-- JS `x || null` on a nullable string. -/
def jsStr (x : Option String) : Option String :=
  jsOr x none

/-- JS `x || y` where the fallback is a plain string. -/
def orFalsyStr (x : Option String) (y : String) : String :=
  match x with
  | some s => if s = "" then y else s
  | none => y

/-- JS `s.includes(pat)`. -/
def strIncludes (s pat : String) : Bool :=
  decide (List.IsInfix pat.toList s.toList)

/-- Persisted mapping state of one axis of a task: `'pending'|'yes'|'no'`. -/
inductive MapVal
  | pending
  | yes
  | no
deriving DecidableEq, Repr

/-- Job lifecycle state: `'running'|'success'|'failed'`. -/
inductive Overall
  | running
  | success
  | failed
deriving DecidableEq, Repr

/-- A raw result object as returned by a tier call, before
`normalizeTierResult`.  Axis fields may use the new names
(`fieldsMapped`/`attributesMapped`) or the legacy ones
(`located`/`mapped`), and may hold arbitrary strings. -/
structure RawTierResult where
  fieldsMapped : Option String
  attributesMapped : Option String
  located : Option String
  mapped : Option String
  locatedSource : Option String
  mappedCount : Option Int
  totalFields : Option Int
  message : Option String
deriving DecidableEq, Repr

/-- The shape produced by `normalizeTierResult`. -/
structure NormResult where
  fieldsMapped : String
  attributesMapped : String
  locatedSource : Option String
  mappedCount : Int
  totalFields : Int
  message : Option String
deriving DecidableEq, Repr

/-- One per-report task inside a job (`job.reports[i]`). -/
structure ReportTask where
  reportKey : String
  fieldsMapped : MapVal
  attributesMapped : MapVal
  locatedSource : Option String
  mappedCount : Int
  totalFields : Int
  message : Option String
deriving DecidableEq, Repr

/-- Aggregate outcome booleans (`job.outcome`). -/
structure Outcome where
  fieldsAnyNo : Bool
  attributesAnyNo : Bool
  fieldsAllYes : Bool
  attributesAllYes : Bool
deriving DecidableEq, Repr

/-- One orchestrator job record (`store.get(jobId)`).  `timer` abstracts
`_timer` to whether a scheduling interval is live. -/
structure Job where
  startedAt : Nat
  overall : Overall
  progressDone : Nat
  progressTotal : Nat
  reports : List ReportTask
  outcome : Outcome
  timer : Bool
  cursor : Nat
  message : Option String
deriving DecidableEq, Repr

/-- Acknowledgement returned by `start`; absent JSON flags are `false`. -/
structure StartResult where
  jobId : String
  started : Bool
  empty : Bool
  already : Bool
deriving DecidableEq, Repr

/-- One entry of the `reports` array of a status snapshot, with the
legacy `located`/`mapped` mirrors. -/
structure ReportSnapshot where
  reportKey : String
  fieldsMapped : MapVal
  attributesMapped : MapVal
  located : MapVal
  mapped : MapVal
  locatedSource : Option String
  mappedCount : Int
  totalFields : Int
  message : Option String
deriving DecidableEq, Repr

/-- The snapshot returned by `status`. -/
structure Snapshot where
  jobId : String
  overall : Overall
  progressDone : Nat
  progressTotal : Nat
  outcome : Outcome
  reports : List ReportSnapshot
deriving DecidableEq, Repr

/-- `computeOutcome`: outcome booleans over the current report states. -/
def computeOutcome (reports : List ReportTask) : Outcome :=
  { fieldsAnyNo := reports.any fun r => decide (r.fieldsMapped = MapVal.no)
    attributesAnyNo := reports.any fun r => decide (r.attributesMapped = MapVal.no)
    fieldsAllYes :=
      decide (0 < reports.length) && reports.all fun r => decide (r.fieldsMapped = MapVal.yes)
    attributesAllYes :=
      decide (0 < reports.length) && reports.all fun r => decide (r.attributesMapped = MapVal.yes) }

/-- Axis normalization inside `normalizeTierResult`: `yes`/`no` kept, any
other truthy string kept as-is, falsy becomes `'pending'`. -/
def normAxis (raw : Option String) : String :=
  match raw with
  | some s => if s = "yes" then "yes" else if s = "no" then "no" else if s = "" then "pending" else s
  | none => "pending"

/-- `normalizeTierResult`: accept old and new keys, default counts to 0
when not finite, null out falsy source/message. -/
def normalizeTierResult (r : Option RawTierResult) : Option NormResult :=
  match r with
  | none => none
  | some r =>
    some
      { fieldsMapped := normAxis (r.fieldsMapped.orElse fun _ => r.located)
        attributesMapped := normAxis (r.attributesMapped.orElse fun _ => r.mapped)
        locatedSource := jsStr r.locatedSource
        mappedCount := r.mappedCount.getD 0
        totalFields := r.totalFields.getD 0
        message := jsStr r.message }

/-- The pending task seeded for one report key by `ensureJob`. -/
def seedTask (k : String) : ReportTask :=
  { reportKey := k
    fieldsMapped := MapVal.pending
    attributesMapped := MapVal.pending
    locatedSource := none
    mappedCount := 0
    totalFields := 0
    message := none }

/-- The fresh job record `ensureJob` builds when no job exists. -/
def seedJob (now : Nat) (reportKeys : List String) : Job :=
  let reports := reportKeys.map seedTask
  { startedAt := now
    overall := Overall.running
    progressDone := 0
    progressTotal := reports.length
    reports := reports
    outcome := computeOutcome reports
    timer := false
    cursor := 0
    message := none }

/-- `ensureJob`: return the stored job unchanged, else seed a new one. -/
def ensureJob (now : Nat) (stored : Option Job) (reportKeys : List String) : Job :=
  match stored with
  | some job => job
  | none => seedJob now reportKeys

/-- Is an axis value conclusive (`'yes'` or `'no'`)? -/
def axisConclusive (s : String) : Bool :=
  decide (s = "yes") || decide (s = "no")

/-- `aNeedsB`: Tier B runs when Tier A returned nothing or left either
axis outside `{yes, no}`. -/
def needsB (a : Option NormResult) : Bool :=
  match a with
  | none => true
  | some r => !(axisConclusive r.fieldsMapped && axisConclusive r.attributesMapped)

/-- The merge of the Tier A and Tier B normalized results performed in
`step` when Tier B ran: per axis keep A's truthy non-`'pending'` value,
else B's value, else `'pending'`; source/message by `||`, counts by `??`. -/
def mergeResults (a b : Option NormResult) : NormResult :=
  { fieldsMapped :=
      match a with
      | some r =>
        if r.fieldsMapped ≠ "" ∧ r.fieldsMapped ≠ "pending" then r.fieldsMapped
        else (b.map fun x => x.fieldsMapped).getD "pending"
      | none => (b.map fun x => x.fieldsMapped).getD "pending"
    attributesMapped :=
      match a with
      | some r =>
        if r.attributesMapped ≠ "" ∧ r.attributesMapped ≠ "pending" then r.attributesMapped
        else (b.map fun x => x.attributesMapped).getD "pending"
      | none => (b.map fun x => x.attributesMapped).getD "pending"
    locatedSource := jsOr (a.bind fun x => x.locatedSource) (jsOr (b.bind fun x => x.locatedSource) none)
    mappedCount := ((a.map fun x => x.mappedCount).orElse fun _ => b.map fun x => x.mappedCount).getD 0
    totalFields := ((a.map fun x => x.totalFields).orElse fun _ => b.map fun x => x.totalFields).getD 0
    message := jsOr (a.bind fun x => x.message) (jsOr (b.bind fun x => x.message) none) }

/-- Terminalization of one axis of the (possibly null) merged result:
`'yes'` stays, `'no'` stays, anything else becomes `'no'`. -/
def terminalizeOpt (o : Option String) : MapVal :=
  if o = some "yes" then MapVal.yes else if o = some "no" then MapVal.no else MapVal.no

/-- The terminalized task values written by a successful `step` (lines
545-554 of the orchestrator). -/
def appliedTask (r : ReportTask) (result : Option NormResult) : ReportTask :=
  let fm := terminalizeOpt (result.map fun x => x.fieldsMapped)
  let am := terminalizeOpt (result.map fun x => x.attributesMapped)
  { r with
    fieldsMapped := fm
    attributesMapped := am
    locatedSource := if fm = MapVal.yes then jsStr (result.bind fun x => x.locatedSource) else none
    mappedCount := (result.map fun x => x.mappedCount).getD 0
    totalFields := (result.map fun x => x.totalFields).getD 0
    message := jsStr (result.bind fun x => x.message) }

/-- The tail of a successful `step`: terminalize the result, write it into
the task at the cursor, advance the cursor, refresh progress and outcome,
and finish the job when the last report was processed. -/
def applyResult (job : Job) (r : ReportTask) (result : Option NormResult) : Job :=
  let reports2 := job.reports.set job.cursor (appliedTask r result)
  let cursor2 := job.cursor + 1
  { job with
    reports := reports2
    cursor := cursor2
    progressDone := min cursor2 job.progressTotal
    outcome := computeOutcome reports2
    overall := if reports2.length ≤ cursor2 then Overall.success else job.overall
    timer := if reports2.length ≤ cursor2 then false else job.timer }

/-- Outcome of one tier call: a raw result object (possibly null), or a
thrown exception represented by its captured message. -/
abbrev TierOutcome := Except String (Option RawTierResult)

/-- `step`: advance one report through Tier A and, when A is
inconclusive, Tier B; on a tier exception fail the job, capture the
message and stop the timer, leaving reports and cursor untouched. -/
def step (resA resB : TierOutcome) (job : Job) : Job :=
  if job.overall ≠ Overall.running then job
  else
    match job.reports[job.cursor]? with
    | none => { job with overall := Overall.success, timer := false }
    | some r =>
      match resA with
      | Except.error e => { job with overall := Overall.failed, message := some e, timer := false }
      | Except.ok rawA =>
        let a := normalizeTierResult rawA
        if needsB a then
          match resB with
          | Except.error e =>
            { job with overall := Overall.failed, message := some e, timer := false }
          | Except.ok rawB => applyResult job r (some (mergeResults a (normalizeTierResult rawB)))
        else applyResult job r a

/-- `start`: idempotent kick-off.  `stored` is the registry entry for
`jobId` before the call; the returned job is the entry afterwards. -/
def start (now : Nat) (jobId : String) (reportKeys : List String) (stored : Option Job) :
    Except String (Job × StartResult) :=
  if jobId = "" then Except.error "start(jobId) requires jobId"
  else
    let job := ensureJob now stored reportKeys
    if job.progressTotal = 0 then
      Except.ok
        ({ job with overall := Overall.success, outcome := computeOutcome job.reports },
          { jobId := jobId, started := true, empty := true, already := false })
    else if job.overall ≠ Overall.running then
      Except.ok (job, { jobId := jobId, started := true, empty := false, already := true })
    else if job.timer then
      Except.ok (job, { jobId := jobId, started := true, empty := false, already := true })
    else
      Except.ok
        ({ job with timer := true },
          { jobId := jobId, started := true, empty := false, already := false })

/-- `status`: snapshot of the stored job, `none` when the id is unknown. -/
def status (jobId : String) (stored : Option Job) : Option Snapshot :=
  match stored with
  | none => none
  | some job =>
    some
      { jobId := jobId
        overall := job.overall
        progressDone := job.progressDone
        progressTotal := job.progressTotal
        outcome := job.outcome
        reports :=
          job.reports.map fun r =>
            { reportKey := r.reportKey
              fieldsMapped := r.fieldsMapped
              attributesMapped := r.attributesMapped
              located := r.fieldsMapped
              mapped := r.attributesMapped
              locatedSource := r.locatedSource
              mappedCount := r.mappedCount
              totalFields := r.totalFields
              message := jsStr r.message } }

/-!
Tier A (`server/services/detectionTierA.js`), the deterministic
rule/lookup pass defined at the top of that file: filename heuristic for
the fields axis, field-spec lookup for the attributes axis.
-/

/-- One `required_files` entry of a routine in the reference dataset. -/
structure ReqFile where
  key : String
  human_name : Option String
deriving DecidableEq, Repr

/-- One routine of the reference dataset (`r.required_files || []` folded
into a plain list). -/
structure Routine where
  required_files : List ReqFile
deriving DecidableEq, Repr

/-- `db.system_data`: routines plus the `report_field_specs` object,
modelled as an association list from report key to the spec's `fields`
array (a key is absent when there is no spec or its `fields` is not an
array). -/
structure SystemData where
  routines : List Routine
  report_field_specs : List (String × List String)
deriving DecidableEq, Repr

/-- The reference dataset handle passed to tiers. -/
structure DB where
  system_data : SystemData
deriving DecidableEq, Repr

/-- An uploaded-file descriptor as the tiers see it. -/
structure UploadedFile where
  originalName : Option String
  serverName : Option String
deriving DecidableEq, Repr

/-- The `{humanName, totalFields}` record of `findReportMeta`. -/
structure ReportMeta where
  humanName : Option String
  totalFields : Nat
deriving DecidableEq, Repr

/-- `findReportMeta`: last matching `required_files` entry wins for the
human name (`human = f.human_name || null` reassigned per match); the
field count comes from the spec lookup. -/
def findReportMeta (db : Option DB) (reportKey : String) : ReportMeta :=
  let routines :=
    match db with
    | some d => d.system_data.routines
    | none => []
  let human :=
    routines.foldl
      (fun h r =>
        r.required_files.foldl
          (fun h2 f => if f.key = reportKey then jsStr f.human_name else h2) h)
      none
  let fieldsOfSpec :=
    match db with
    | some d => d.system_data.report_field_specs.lookup reportKey
    | none => none
  { humanName := human, totalFields := (fieldsOfSpec.map List.length).getD 0 }

/-- The lowercased name of an uploaded file:
`String(f.originalName || f.serverName || '').toLowerCase()`. -/
def uploadedName (f : UploadedFile) : String :=
  (orFalsyStr f.originalName (orFalsyStr f.serverName "")).toLower

/-- `looksLikeMatch`: does any uploaded file name contain the report key
or the (truthy) human name, case-insensitively? -/
def looksLikeMatch (files : List UploadedFile) (reportKey : String) (humanName : Option String) :
    Bool :=
  let q := reportKey.toLower
  let h := (orFalsyStr humanName "").toLower
  files.any fun f =>
    strIncludes (uploadedName f) q || (decide (h ≠ "") && strIncludes (uploadedName f) h)

/-- Tier A `locateAndMap` (detectionTierA.js lines 41-56): located by
filename heuristic, mapped only when located and a field spec exists;
emits the legacy `located`/`mapped` keys. -/
def locateAndMap (files : List UploadedFile) (db : Option DB) (reportKey : String) :
    RawTierResult :=
  let meta := findReportMeta db reportKey
  let locatedYes := looksLikeMatch files reportKey meta.humanName
  let mappedYes := locatedYes && decide (0 < meta.totalFields)
  { fieldsMapped := none
    attributesMapped := none
    located := some (if locatedYes then "yes" else "no")
    mapped := some (if mappedYes then "yes" else "no")
    locatedSource := some "db"
    mappedCount := some (if mappedYes then (meta.totalFields : Int) else 0)
    totalFields := some (meta.totalFields : Int)
    message := none }

/-!
Reachability of job states and the inductive invariant used to settle
the invariant claims.
-/

/-- Both axes of a task are terminal (`yes` or `no`). -/
def taskTerminal (t : ReportTask) : Prop :=
  (t.fieldsMapped = MapVal.yes ∨ t.fieldsMapped = MapVal.no) ∧
    (t.attributesMapped = MapVal.yes ∨ t.attributesMapped = MapVal.no)

/-- Job states reachable through the orchestrator's operations: seeding
by `ensureJob`, the mutations of `start`, and scheduler ticks running
`step` with arbitrary tier outcomes. -/
inductive Reachable : Job → Prop
  | seed (now : Nat) (keys : List String) : Reachable (seedJob now keys)
  | startOk {j j2 : Job} {res : StartResult} (now : Nat) (jobId : String) (keys : List String) :
      Reachable j → start now jobId keys (some j) = Except.ok (j2, res) → Reachable j2
  | stepTick {j : Job} (resA resB : TierOutcome) :
      Reachable j → Reachable (step resA resB j)

/-- Inductive invariant of reachable job states. -/
structure JobInv (j : Job) : Prop where
  total_eq : j.progressTotal = j.reports.length
  outcome_eq : j.outcome = computeOutcome j.reports
  timer_total : j.timer = true → j.progressTotal ≠ 0
  success_cursor : j.overall = Overall.success → j.reports.length ≤ j.cursor
  processed : ∀ i t, i < j.cursor → j.reports[i]? = some t → taskTerminal t

theorem terminalizeOpt_terminal (o : Option String) :
    terminalizeOpt o = MapVal.yes ∨ terminalizeOpt o = MapVal.no := by
  unfold terminalizeOpt
  split
  · exact Or.inl rfl
  · split
    · exact Or.inr rfl
    · exact Or.inr rfl

theorem appliedTask_terminal (r : ReportTask) (result : Option NormResult) :
    taskTerminal (appliedTask r result) :=
  ⟨terminalizeOpt_terminal _, terminalizeOpt_terminal _⟩

theorem applyResult_reports (j : Job) (r : ReportTask) (result : Option NormResult) :
    (applyResult j r result).reports = j.reports.set j.cursor (appliedTask r result) := rfl

theorem applyResult_cursor (j : Job) (r : ReportTask) (result : Option NormResult) :
    (applyResult j r result).cursor = j.cursor + 1 := rfl

theorem applyResult_progressTotal (j : Job) (r : ReportTask) (result : Option NormResult) :
    (applyResult j r result).progressTotal = j.progressTotal := rfl

theorem applyResult_progressDone (j : Job) (r : ReportTask) (result : Option NormResult) :
    (applyResult j r result).progressDone = min (j.cursor + 1) j.progressTotal := rfl

theorem applyResult_outcome (j : Job) (r : ReportTask) (result : Option NormResult) :
    (applyResult j r result).outcome =
      computeOutcome (j.reports.set j.cursor (appliedTask r result)) := rfl

theorem applyResult_overall (j : Job) (r : ReportTask) (result : Option NormResult) :
    (applyResult j r result).overall =
      if j.reports.length ≤ j.cursor + 1 then Overall.success else j.overall := by
  show (if (j.reports.set j.cursor (appliedTask r result)).length ≤ j.cursor + 1 then
      Overall.success else j.overall) = _
  rw [List.length_set]

theorem applyResult_timer (j : Job) (r : ReportTask) (result : Option NormResult) :
    (applyResult j r result).timer =
      if j.reports.length ≤ j.cursor + 1 then false else j.timer := by
  show (if (j.reports.set j.cursor (appliedTask r result)).length ≤ j.cursor + 1 then
      false else j.timer) = _
  rw [List.length_set]

theorem applyResult_inv {j : Job} (inv : JobInv j) (r : ReportTask)
    (result : Option NormResult) (hcur : j.cursor < j.reports.length) :
    JobInv (applyResult j r result) := by
  constructor
  · rw [applyResult_progressTotal, applyResult_reports, List.length_set]
    exact inv.total_eq
  · rw [applyResult_outcome, applyResult_reports]
  · rw [applyResult_timer, applyResult_progressTotal]
    intro ht
    by_cases hle : j.reports.length ≤ j.cursor + 1
    · rw [if_pos hle] at ht
      cases ht
    · rw [if_neg hle] at ht
      exact inv.timer_total ht
  · rw [applyResult_overall, applyResult_reports, applyResult_cursor, List.length_set]
    intro ho
    by_cases hle : j.reports.length ≤ j.cursor + 1
    · exact hle
    · rw [if_neg hle] at ho
      have := inv.success_cursor ho
      omega
  · rw [applyResult_reports, applyResult_cursor]
    intro i t hi hget
    by_cases hic : i = j.cursor
    · subst hic
      rw [List.getElem?_set_eq_of_lt _ hcur] at hget
      cases hget
      exact appliedTask_terminal _ _
    · have hlt : i < j.cursor := by omega
      rw [List.getElem?_set_ne (by omega)] at hget
      exact inv.processed i t hlt hget

theorem failJob_inv {j : Job} (inv : JobInv j) (ov : Overall) (e : Option String)
    (hov : ov ≠ Overall.success) :
    JobInv { j with overall := ov, message := e, timer := false } := by
  refine ⟨?_, ?_, ?_, ?_, ?_⟩
  · exact inv.total_eq
  · exact inv.outcome_eq
  · intro ht
    exact absurd ht (by simp)
  · intro ho
    exact absurd ho hov
  · exact inv.processed

theorem step_inv {j : Job} (inv : JobInv j) (resA resB : TierOutcome) :
    JobInv (step resA resB j) := by
  unfold step
  split
  · exact inv
  · cases hget : j.reports[j.cursor]? with
    | none =>
      have hge : j.reports.length ≤ j.cursor := by
        by_contra hlt
        push_neg at hlt
        rw [List.getElem?_eq_getElem hlt] at hget
        cases hget
      refine ⟨?_, ?_, ?_, ?_, ?_⟩
      · exact inv.total_eq
      · exact inv.outcome_eq
      · intro ht
        exact absurd ht (by simp)
      · intro _
        exact hge
      · exact inv.processed
    | some r =>
      have hcur : j.cursor < j.reports.length := by
        by_contra hge
        push_neg at hge
        rw [List.getElem?_eq_none hge] at hget
        cases hget
      cases resA with
      | error e => exact failJob_inv inv Overall.failed (some e) (by simp)
      | ok rawA =>
        dsimp only
        split
        · cases resB with
          | error e => exact failJob_inv inv Overall.failed (some e) (by simp)
          | ok rawB => exact applyResult_inv inv r _ hcur
        · exact applyResult_inv inv r _ hcur

theorem seedJob_inv (now : Nat) (keys : List String) : JobInv (seedJob now keys) := by
  refine ⟨?_, ?_, ?_, ?_, ?_⟩
  · rfl
  · rfl
  · intro ht
    exact absurd ht (by simp [seedJob])
  · intro ho
    exact absurd ho (by simp [seedJob])
  · intro i t hi _
    exact absurd hi (by simp [seedJob])

theorem start_inv {j j2 : Job} {res : StartResult} (now : Nat) (jobId : String)
    (keys : List String) (inv : JobInv j)
    (h : start now jobId keys (some j) = Except.ok (j2, res)) : JobInv j2 := by
  unfold start at h
  split at h
  · cases h
  · simp only [ensureJob] at h
    split at h
    · rename_i htot
      cases h
      refine ⟨?_, ?_, ?_, ?_, ?_⟩
      · exact inv.total_eq
      · rfl
      · intro ht
        exact inv.timer_total ht
      · intro _
        show j.reports.length ≤ j.cursor
        have hz : j.reports.length = 0 := inv.total_eq ▸ htot
        omega
      · exact inv.processed
    · split at h
      · cases h
        exact inv
      · split at h
        · cases h
          exact inv
        · rename_i htot _ _
          cases h
          refine ⟨?_, ?_, ?_, ?_, ?_⟩
          · exact inv.total_eq
          · exact inv.outcome_eq
          · intro _
            exact htot
          · exact inv.success_cursor
          · exact inv.processed

theorem reachable_inv {j : Job} (h : Reachable j) : JobInv j := by
  induction h with
  | seed now keys => exact seedJob_inv now keys
  | startOk now jobId keys _ hstart ih => exact start_inv now jobId keys ih hstart
  | stepTick resA resB _ ih => exact step_inv ih resA resB

/-!
Helper definitions and lemmas used by the claim statements.
-/

/-- Is an axis value inside the tier contract range `{pending, yes, no}`? -/
def axisInRange (s : String) : Bool :=
  decide (s = "pending") || decide (s = "yes") || decide (s = "no")

/-- Does a normalized tier result respect the tier contract, both axes in
`{pending, yes, no}`? -/
def conformsTierContract (a : Option NormResult) : Bool :=
  match a with
  | none => true
  | some r => axisInRange r.fieldsMapped && axisInRange r.attributesMapped

/-- Modelled from the spec: the per-axis merge rule as §4.2 step 5 words
it — keep Tier A's value if it is `yes`/`no`, otherwise take Tier B's
value for that axis, defaulting to `pending` if Tier B also abstains.
Compared against the code's `mergeResults`. -/
def specMergeAxis (aVal bVal : Option String) : String :=
  match aVal with
  | some v => if v = "yes" ∨ v = "no" then v else bVal.getD "pending"
  | none => bVal.getD "pending"

/-- The captured message when one of the two tier calls of a `step`
throws (Tier B counting only when Tier A's result makes it run). -/
def tierFailure (resA resB : TierOutcome) : Option String :=
  match resA with
  | Except.error e => some e
  | Except.ok rawA =>
    if needsB (normalizeTierResult rawA) then
      match resB with
      | Except.error e => some e
      | Except.ok _ => none
    else none

/-- The `mappedCount` carried by a raw tier result, `none` when the
result is null or the field is missing or not finite. -/
def rawMappedCount (r : Option RawTierResult) : Option Int :=
  r.bind fun x => x.mappedCount

/-- The `totalFields` carried by a raw tier result, in the same sense. -/
def rawTotalFields (r : Option RawTierResult) : Option Int :=
  r.bind fun x => x.totalFields

theorem jsStr_ne_some_empty (x : Option String) : jsStr x ≠ some "" := by
  unfold jsStr jsOr
  cases x with
  | none =>
    intro h
    cases h
  | some s =>
    dsimp only
    split
    · intro h
      cases h
    · rename_i hs
      intro h
      cases h
      exact hs rfl

theorem applyResult_task (j : Job) (r : ReportTask) (result : Option NormResult)
    (hcur : j.cursor < j.reports.length) :
    (applyResult j r result).reports[j.cursor]? = some (appliedTask r result) := by
  rw [applyResult_reports, List.getElem?_set_eq_of_lt _ hcur]

theorem step_not_running {j : Job} (resA resB : TierOutcome)
    (h : j.overall ≠ Overall.running) : step resA resB j = j := by
  unfold step
  rw [if_pos h]

theorem step_ok_eq {j : Job} {r : ReportTask} (hrun : j.overall = Overall.running)
    (hget : j.reports[j.cursor]? = some r) (rawA : Option RawTierResult)
    (resB : TierOutcome) :
    step (Except.ok rawA) resB j =
      if needsB (normalizeTierResult rawA) then
        match resB with
        | Except.error e =>
          { j with overall := Overall.failed, message := some e, timer := false }
        | Except.ok rawB =>
          applyResult j r (some (mergeResults (normalizeTierResult rawA) (normalizeTierResult rawB)))
      else applyResult j r (normalizeTierResult rawA) := by
  unfold step
  rw [if_neg (by simp [hrun]), hget]

/-!
Claim theorems.
-/

/-- C2 counterexample: starting a fresh job with the duplicate key list
`["a", "a"]` seeds two tasks, both with report key `"a"`; the total is 2,
not the number of distinct keys (1), and report keys are not unique
within the job — duplicates do not collapse. -/
theorem start_duplicate_keys_not_collapsed :
    (start 0 "J" ["a", "a"] none).toOption.map
        (fun p => (p.1.progressTotal, p.1.reports.map fun t => t.reportKey)) =
      some (2, ["a", "a"]) ∧
    (ensureJob 0 none ["a", "a"]).progressTotal ≠ 1 ∧
    ¬ List.Pairwise (fun t1 t2 => t1.reportKey ≠ t2.reportKey)
        (ensureJob 0 none ["a", "a"]).reports := by
  decide

/-- C2 (amended): when `start` creates a new job, `ensureJob` seeds
exactly one pending `ReportTask` per entry of `reportKeys`, in order,
without deduplication; `progress.total` equals the number of entries and
the i-th task carries the i-th key. -/
theorem ensureJob_seeds_one_task_per_entry (now : Nat) (keys : List String) :
    (ensureJob now none keys).reports = keys.map seedTask ∧
    (ensureJob now none keys).progressTotal = keys.length ∧
    (ensureJob now none keys).reports.map (fun t => t.reportKey) = keys := by
  refine ⟨rfl, ?_, ?_⟩
  · show (keys.map seedTask).length = keys.length
    exact List.length_map keys seedTask
  · show (keys.map seedTask).map (fun t => t.reportKey) = keys
    rw [List.map_map]
    exact List.map_id keys

/-- C6: starting an unknown job with an empty report-key list immediately
yields a `success` job with progress `{0, 0}`, all four outcome flags
false and no scheduling timer, and the call acknowledges with
`{started: true, empty: true}`. -/
theorem start_empty_set_completion (now : Nat) (jobId : String) (h : jobId ≠ "") :
    start now jobId [] none =
      Except.ok ({ seedJob now [] with overall := Overall.success },
        { jobId := jobId, started := true, empty := true, already := false }) ∧
    ({ seedJob now [] with overall := Overall.success } : Job).overall = Overall.success ∧
    ({ seedJob now [] with overall := Overall.success } : Job).progressDone = 0 ∧
    ({ seedJob now [] with overall := Overall.success } : Job).progressTotal = 0 ∧
    ({ seedJob now [] with overall := Overall.success } : Job).outcome =
      { fieldsAnyNo := false, attributesAnyNo := false, fieldsAllYes := false,
        attributesAllYes := false } ∧
    ({ seedJob now [] with overall := Overall.success } : Job).timer = false := by
  refine ⟨?_, rfl, rfl, rfl, rfl, rfl⟩
  unfold start
  rw [if_neg h]
  rfl

/-- C6 witness: the empty-start theorem applied at the concrete job id
`"J"`. -/
theorem start_empty_set_completion_witness :
    ("J" : String) ≠ "" ∧
      start 7 "J" [] none =
        Except.ok ({ seedJob 7 [] with overall := Overall.success },
          { jobId := "J", started := true, empty := true, already := false }) :=
  ⟨by decide, (start_empty_set_completion 7 "J" (by decide)).1⟩

/-- C8: `status` on an unknown job id returns the not-found result
(`none`), distinct from every snapshot, and never throws; on a stored job
it returns a snapshot carrying the job's overall state, progress, outcome
and per-report task values (with the legacy `located`/`mapped` mirrors of
the two axes). -/
theorem status_not_found_or_snapshot (jobId : String) (job : Job) :
    status jobId none = none ∧
    (∀ s : Snapshot, status jobId none ≠ some s) ∧
    (status jobId (some job)).map Snapshot.overall = some job.overall ∧
    (status jobId (some job)).map (fun s => (s.progressDone, s.progressTotal)) =
      some (job.progressDone, job.progressTotal) ∧
    (status jobId (some job)).map Snapshot.outcome = some job.outcome ∧
    (status jobId (some job)).map (fun s => s.reports.map fun r =>
        (r.reportKey, r.fieldsMapped, r.attributesMapped, r.located, r.mapped)) =
      some (job.reports.map fun t =>
        (t.reportKey, t.fieldsMapped, t.attributesMapped, t.fieldsMapped, t.attributesMapped)) := by
  refine ⟨rfl, ?_, rfl, rfl, rfl, ?_⟩
  · intro s h
    cases h
  · show some ((job.reports.map _).map _) = _
    rw [List.map_map]
    rfl

/-- C7: when a tier call inside `step` throws, the job transitions to
`failed` with the captured (non-empty) message and the timer is cleared,
while the reports (including the task being processed, still in its
pre-step state), the cursor and `progress.done` are all unchanged; the
failure is recorded on the job record and surfaced through the status
snapshot's `failed` overall state rather than thrown. -/
theorem step_tier_failure_atomic (jobId : String) (job : Job) (resA resB : TierOutcome)
    (e : String) (hrun : job.overall = Overall.running)
    (hcur : job.cursor < job.reports.length) (hf : tierFailure resA resB = some e)
    (hne : e ≠ "") :
    step resA resB job =
      { job with overall := Overall.failed, message := some e, timer := false } ∧
    (step resA resB job).reports = job.reports ∧
    (step resA resB job).cursor = job.cursor ∧
    (step resA resB job).progressDone = job.progressDone ∧
    (step resA resB job).message = some e ∧ e ≠ "" ∧
    (status jobId (some (step resA resB job))).map Snapshot.overall =
      some Overall.failed := by
  obtain ⟨r, hget⟩ : ∃ r, job.reports[job.cursor]? = some r := by
    rw [List.getElem?_eq_getElem hcur]
    exact ⟨_, rfl⟩
  have heq : step resA resB job =
      { job with overall := Overall.failed, message := some e, timer := false } := by
    cases resA with
    | error eA =>
      have heA : eA = e := by
        unfold tierFailure at hf
        cases hf
        rfl
      subst heA
      unfold step
      rw [if_neg (by simp [hrun]), hget]
    | ok rawA =>
      unfold tierFailure at hf
      dsimp only at hf
      by_cases hb : needsB (normalizeTierResult rawA) = true
      · rw [if_pos hb] at hf
        cases resB with
        | error eB =>
          have heB : eB = e := by
            cases hf
            rfl
          subst heB
          rw [step_ok_eq hrun hget, if_pos hb]
        | ok rawB => cases hf
      · rw [if_neg hb] at hf
        cases hf
  refine ⟨heq, ?_, ?_, ?_, ?_, hne, ?_⟩ <;> rw [heq]
  rfl

/-- C7 witness: the tier-failure theorem at the spec's concrete scenario,
a two-report job whose first Tier A call throws: the job fails with the
captured message while both tasks stay in their pending seed state and
progress stays `{0, 2}`. -/
theorem step_tier_failure_atomic_witness :
    tierFailure (Except.error "TierA exploded") (Except.ok none) = some "TierA exploded" ∧
    step (Except.error "TierA exploded") (Except.ok none) (seedJob 0 ["soi", "pands"]) =
      { seedJob 0 ["soi", "pands"] with
          overall := Overall.failed, message := some "TierA exploded", timer := false } :=
  ⟨by decide,
    (step_tier_failure_atomic "J" (seedJob 0 ["soi", "pands"]) (Except.error "TierA exploded")
      (Except.ok none) "TierA exploded" rfl (by decide) (by decide) (by decide)).1⟩

/-- C10 counterexample: a tier result whose `mappedCount` is the finite
number `-1` passes `Number.isFinite`, so `normalizeTierResult` and the
completed step write `-1` into the task — the persisted count is not
non-negative. -/
theorem step_negative_count_passes_through :
    (step
        (Except.ok (some
          { fieldsMapped := some "yes", attributesMapped := some "yes", located := none,
            mapped := none, locatedSource := some "db", mappedCount := some (-1),
            totalFields := some 2, message := none }))
        (Except.ok none) (seedJob 0 ["k"])).reports.map (fun t => t.mappedCount) = [-1] ∧
    ¬ (0 : Int) ≤ -1 := by
  constructor
  · decide
  · decide

/-- C10 (amended): for every pair of tier result objects — legacy keys,
out-of-range axis strings, missing or non-finite counts included — a
completed step writes a well-formed task: both axes end in `{yes, no}`
(unrecognized values terminalize to `no`), `locatedSource` is null
whenever the fields axis is not `yes` and is never the empty string,
`message` is never the empty string, and `mappedCount`/`totalFields`
default to 0 whenever the tiers supplied no finite value (finite values,
including negative ones, pass through). -/
theorem step_normalizes_any_tier_result (job : Job) (rawA rawB : Option RawTierResult)
    (hrun : job.overall = Overall.running) (hcur : job.cursor < job.reports.length) :
    ∀ t, (step (Except.ok rawA) (Except.ok rawB) job).reports[job.cursor]? = some t →
      (t.fieldsMapped = MapVal.yes ∨ t.fieldsMapped = MapVal.no) ∧
      (t.attributesMapped = MapVal.yes ∨ t.attributesMapped = MapVal.no) ∧
      (t.fieldsMapped ≠ MapVal.yes → t.locatedSource = none) ∧
      t.locatedSource ≠ some "" ∧
      t.message ≠ some "" ∧
      (rawMappedCount rawA = none → rawMappedCount rawB = none → t.mappedCount = 0) ∧
      (rawTotalFields rawA = none → rawTotalFields rawB = none → t.totalFields = 0) := by
  obtain ⟨r, hget⟩ : ∃ r, job.reports[job.cursor]? = some r := by
    rw [List.getElem?_eq_getElem hcur]
    exact ⟨_, rfl⟩
  have happly : ∀ result : Option NormResult, ∀ t,
      (applyResult job r result).reports[job.cursor]? = some t →
      (t.fieldsMapped = MapVal.yes ∨ t.fieldsMapped = MapVal.no) ∧
      (t.attributesMapped = MapVal.yes ∨ t.attributesMapped = MapVal.no) ∧
      (t.fieldsMapped ≠ MapVal.yes → t.locatedSource = none) ∧
      t.locatedSource ≠ some "" ∧
      t.message ≠ some "" ∧
      ((result.map fun x => x.mappedCount).getD 0 = t.mappedCount) ∧
      ((result.map fun x => x.totalFields).getD 0 = t.totalFields) := by
    intro result t ht
    rw [applyResult_task job r result hcur] at ht
    cases ht
    refine ⟨appliedTask_terminal r result |>.1, appliedTask_terminal r result |>.2,
      ?_, ?_, ?_, rfl, rfl⟩
    · intro hne
      have hne2 : terminalizeOpt (result.map fun x => x.fieldsMapped) ≠ MapVal.yes := hne
      show (if terminalizeOpt (result.map fun x => x.fieldsMapped) = MapVal.yes then
          jsStr (result.bind fun x => x.locatedSource) else none) = none
      rw [if_neg hne2]
    · show (if terminalizeOpt (result.map fun x => x.fieldsMapped) = MapVal.yes then
          jsStr (result.bind fun x => x.locatedSource) else none) ≠ some ""
      split
      · exact jsStr_ne_some_empty _
      · intro hx
        cases hx
    · exact jsStr_ne_some_empty _
  intro t ht
  rw [step_ok_eq hrun hget] at ht
  by_cases hb : needsB (normalizeTierResult rawA) = true
  · rw [if_pos hb] at ht
    obtain ⟨h1, h2, h3, h4, h5, hmc, htf⟩ := happly _ t ht
    refine ⟨h1, h2, h3, h4, h5, ?_, ?_⟩
    · intro hA hB
      rw [← hmc]
      cases rawA with
      | none =>
        cases rawB with
        | none => rfl
        | some rb =>
          have hrb : rb.mappedCount = none := by
            simpa [rawMappedCount] using hB
          simp [mergeResults, normalizeTierResult, hrb]
      | some ra =>
        have hra : ra.mappedCount = none := by
          simpa [rawMappedCount] using hA
        simp [mergeResults, normalizeTierResult, hra]
    · intro hA hB
      rw [← htf]
      cases rawA with
      | none =>
        cases rawB with
        | none => rfl
        | some rb =>
          have hrb : rb.totalFields = none := by
            simpa [rawTotalFields] using hB
          simp [mergeResults, normalizeTierResult, hrb]
      | some ra =>
        have hra : ra.totalFields = none := by
          simpa [rawTotalFields] using hA
        simp [mergeResults, normalizeTierResult, hra]
  · rw [if_neg hb] at ht
    obtain ⟨h1, h2, h3, h4, h5, hmc, htf⟩ := happly _ t ht
    refine ⟨h1, h2, h3, h4, h5, ?_, ?_⟩
    · intro hA _
      rw [← hmc]
      cases rawA with
      | none => rfl
      | some ra =>
        have hra : ra.mappedCount = none := by
          simpa [rawMappedCount] using hA
        simp [normalizeTierResult, hra]
    · intro hA _
      rw [← htf]
      cases rawA with
      | none => rfl
      | some ra =>
        have hra : ra.totalFields = none := by
          simpa [rawTotalFields] using hA
        simp [normalizeTierResult, hra]

/-- A tier answer using the legacy keys, an out-of-range axis value,
empty-string source/message and no counts. -/
def oddTierAnswer : RawTierResult :=
  { fieldsMapped := none, attributesMapped := none, located := some "maybe",
    mapped := some "", locatedSource := some "", mappedCount := none,
    totalFields := none, message := some "" }

/-- A one-report job stepped with the odd tier answer (Tier B null). -/
def oddSteppedJob : Job :=
  step (Except.ok (some oddTierAnswer)) (Except.ok none) (seedJob 3 ["k"])

/-- The well-formed task that step writes for the odd tier answer. -/
def oddWrittenTask : ReportTask :=
  { reportKey := "k", fieldsMapped := MapVal.no, attributesMapped := MapVal.no,
    locatedSource := none, mappedCount := 0, totalFields := 0, message := none }

/-- C10 witness: the normalization theorem applied to the one-report job
stepped with the odd tier answer; the written task is terminal on both
axes with null source and message and zero counts. -/
theorem step_normalizes_any_tier_result_witness :
    oddSteppedJob.reports[(seedJob 3 ["k"]).cursor]? = some oddWrittenTask ∧
    (oddWrittenTask.fieldsMapped = MapVal.yes ∨ oddWrittenTask.fieldsMapped = MapVal.no) ∧
    (oddWrittenTask.attributesMapped = MapVal.yes ∨
      oddWrittenTask.attributesMapped = MapVal.no) ∧
    oddWrittenTask.locatedSource = none ∧
    oddWrittenTask.locatedSource ≠ some "" ∧
    oddWrittenTask.message ≠ some "" ∧
    oddWrittenTask.mappedCount = 0 ∧
    oddWrittenTask.totalFields = 0 :=
  ⟨rfl,
    (step_normalizes_any_tier_result (seedJob 3 ["k"]) (some oddTierAnswer) none rfl
      (by decide) oddWrittenTask rfl).1,
    (step_normalizes_any_tier_result (seedJob 3 ["k"]) (some oddTierAnswer) none rfl
      (by decide) oddWrittenTask rfl).2.1,
    (step_normalizes_any_tier_result (seedJob 3 ["k"]) (some oddTierAnswer) none rfl
      (by decide) oddWrittenTask rfl).2.2.1 (by decide),
    (step_normalizes_any_tier_result (seedJob 3 ["k"]) (some oddTierAnswer) none rfl
      (by decide) oddWrittenTask rfl).2.2.2.1,
    (step_normalizes_any_tier_result (seedJob 3 ["k"]) (some oddTierAnswer) none rfl
      (by decide) oddWrittenTask rfl).2.2.2.2.1,
    (step_normalizes_any_tier_result (seedJob 3 ["k"]) (some oddTierAnswer) none rfl
      (by decide) oddWrittenTask rfl).2.2.2.2.2.1 rfl rfl,
    (step_normalizes_any_tier_result (seedJob 3 ["k"]) (some oddTierAnswer) none rfl
      (by decide) oddWrittenTask rfl).2.2.2.2.2.2 rfl rfl⟩

/-- C1: on a reachable job that is `running` with a live scheduling
timer, a second `start` with the same (non-empty) job id and any payload
returns `{started: true, already: true}` and leaves the stored job
entirely unchanged — no second scheduling loop, no re-seeding of reports,
cursor and every task state intact. -/
theorem start_idempotent_on_running (now : Nat) (jobId : String) (keys : List String)
    (j : Job) (hreach : Reachable j) (hjid : jobId ≠ "")
    (hrun : j.overall = Overall.running) (htimer : j.timer = true) :
    start now jobId keys (some j) =
      Except.ok (j, { jobId := jobId, started := true, empty := false, already := true }) ∧
    ∀ j2 res, start now jobId keys (some j) = Except.ok (j2, res) →
      j2.reports = j.reports ∧ j2.cursor = j.cursor ∧ j2.timer = j.timer ∧
      res.already = true ∧ res.started = true := by
  have htot : j.progressTotal ≠ 0 := (reachable_inv hreach).timer_total htimer
  have heq : start now jobId keys (some j) =
      Except.ok (j, { jobId := jobId, started := true, empty := false, already := true }) := by
    unfold start ensureJob
    rw [if_neg hjid]
    dsimp only
    rw [if_neg htot, if_neg (by simp [hrun]), if_pos htimer]
  refine ⟨heq, ?_⟩
  intro j2 res h2
  rw [heq] at h2
  cases h2
  exact ⟨rfl, rfl, rfl, rfl, rfl⟩

/-- C1 witness: a job seeded and started for key `"a"` (reachably
running with a live timer); a second start with a different payload
returns `already: true` and the job record is unchanged. -/
theorem start_idempotent_on_running_witness :
    start 9 "J" ["zzz", "a"] (some { seedJob 0 ["a"] with timer := true }) =
      Except.ok ({ seedJob 0 ["a"] with timer := true },
        { jobId := "J", started := true, empty := false, already := true }) :=
  (start_idempotent_on_running 9 "J" ["zzz", "a"] { seedJob 0 ["a"] with timer := true }
    (@Reachable.startOk (seedJob 0 ["a"]) { seedJob 0 ["a"] with timer := true }
      { jobId := "J", started := true, empty := false, already := false } 0 "J" ["a"]
      (Reachable.seed 0 ["a"]) rfl)
    (by decide) rfl rfl).1

/-- C3: in every reachable job state, every processed task (index below
the cursor) has both axes in `{yes, no}`; in particular every task of a
job whose overall state is `success` is terminal on both axes; and the
step's terminalization forces any axis value other than `'yes'` that is
not already `'no'` to `'no'` (never leaving `'pending'`). -/
theorem reachable_terminalization (j : Job) (hreach : Reachable j) :
    (∀ i t, i < j.cursor → j.reports[i]? = some t → taskTerminal t) ∧
    (j.overall = Overall.success → ∀ t ∈ j.reports, taskTerminal t) ∧
    (∀ s : String, s ≠ "yes" → terminalizeOpt (some s) = MapVal.no) := by
  have inv := reachable_inv hreach
  refine ⟨inv.processed, ?_, ?_⟩
  · intro ho t hmem
    have hlen := inv.success_cursor ho
    obtain ⟨i, hi⟩ := List.mem_iff_getElem?.mp hmem
    have hilt : i < j.reports.length := by
      by_contra hge
      push_neg at hge
      rw [List.getElem?_eq_none hge] at hi
      cases hi
    exact inv.processed i t (by omega) hi
  · intro s hs
    unfold terminalizeOpt
    rw [if_neg (by simpa using hs)]
    split
    · rfl
    · rfl

/-- A concrete conclusive Tier A answer used by the reachable concrete
scenarios below. -/
def demoTierAnswer : RawTierResult :=
  { fieldsMapped := some "yes", attributesMapped := some "no", located := none,
    mapped := none, locatedSource := some "db", mappedCount := some 3,
    totalFields := some 3, message := none }

/-- The job for key `"a"` right after its first `start` (timer live). -/
def demoStartedJob : Job :=
  { seedJob 0 ["a"] with timer := true }

/-- The same job after one tick with the conclusive Tier A answer. -/
def demoFinishedJob : Job :=
  step (Except.ok (some demoTierAnswer)) (Except.ok none) demoStartedJob

theorem demoFinishedJob_reachable : Reachable demoFinishedJob :=
  Reachable.stepTick _ _
    (@Reachable.startOk (seedJob 0 ["a"]) demoStartedJob
      { jobId := "J", started := true, empty := false, already := false } 0 "J" ["a"]
      (Reachable.seed 0 ["a"]) rfl)

/-- C3 witness: the terminalization theorem applied to a concrete
reachable `success` job — seeded for one key, started, and stepped with a
conclusive Tier A answer — whose single task is terminal on both axes. -/
theorem reachable_terminalization_witness :
    demoFinishedJob.overall = Overall.success ∧
    ∀ t ∈ demoFinishedJob.reports, taskTerminal t :=
  ⟨rfl, (reachable_terminalization demoFinishedJob demoFinishedJob_reachable).2.1 rfl⟩

/-- C5: in every reachable job state the outcome flags agree with the
reports: `fieldsAllYes` holds iff the list is non-empty and every task's
`fieldsMapped` is `yes`, `fieldsAnyNo` iff some task's `fieldsMapped` is
`no`, and the analogous equivalences for the attributes axis. -/
theorem reachable_outcome_consistent (j : Job) (hreach : Reachable j) :
    (j.outcome.fieldsAllYes = true ↔
      j.reports ≠ [] ∧ ∀ t ∈ j.reports, t.fieldsMapped = MapVal.yes) ∧
    (j.outcome.attributesAllYes = true ↔
      j.reports ≠ [] ∧ ∀ t ∈ j.reports, t.attributesMapped = MapVal.yes) ∧
    (j.outcome.fieldsAnyNo = true ↔ ∃ t ∈ j.reports, t.fieldsMapped = MapVal.no) ∧
    (j.outcome.attributesAnyNo = true ↔ ∃ t ∈ j.reports, t.attributesMapped = MapVal.no) := by
  have hout := (reachable_inv hreach).outcome_eq
  rw [hout]
  unfold computeOutcome
  refine ⟨?_, ?_, ?_, ?_⟩
  · simp [List.all_eq_true, List.length_pos]
  · simp [List.all_eq_true, List.length_pos]
  · simp [List.any_eq_true]
  · simp [List.any_eq_true]

/-- C5 witness: the outcome-consistency theorem at the concrete reachable
job above — after one conclusive step the `fieldsAllYes` equivalence (and
its mates) hold of the computed outcome. -/
theorem reachable_outcome_consistent_witness :
    (demoFinishedJob.outcome.fieldsAllYes = true ↔
      demoFinishedJob.reports ≠ [] ∧
        ∀ t ∈ demoFinishedJob.reports, t.fieldsMapped = MapVal.yes) ∧
    (demoFinishedJob.outcome.attributesAnyNo = true ↔
      ∃ t ∈ demoFinishedJob.reports, t.attributesMapped = MapVal.no) :=
  ⟨(reachable_outcome_consistent demoFinishedJob demoFinishedJob_reachable).1,
    (reachable_outcome_consistent demoFinishedJob demoFinishedJob_reachable).2.2.2⟩

theorem axisInRange_cases {s : String} (h : axisInRange s = true) :
    s = "pending" ∨ s = "yes" ∨ s = "no" :=
  or_assoc.mp (by simpa [axisInRange, decide_eq_true_iff] using h)

/-- C4: Tier B is invoked exactly when Tier A's normalized result leaves
an axis outside `{yes, no}` (in particular when the result is null); when
Tier B is not invoked the step result is independent of Tier B's outcome;
for contract-conforming results the code's merge agrees per axis with the
spec's rule (keep A's `yes`/`no`, else B's value, else `pending`); and a
Tier A `yes` on an axis yields a final task value of `yes` on that axis
regardless of Tier B's result. -/
theorem step_tiered_merge (job : Job) (rawA rawB : Option RawTierResult)
    (hrun : job.overall = Overall.running) (hcur : job.cursor < job.reports.length)
    (hA : conformsTierContract (normalizeTierResult rawA) = true)
    (_hB : conformsTierContract (normalizeTierResult rawB) = true) :
    (needsB (normalizeTierResult rawA) = true ↔
      ¬ ∃ a, normalizeTierResult rawA = some a ∧
        axisConclusive a.fieldsMapped = true ∧ axisConclusive a.attributesMapped = true) ∧
    (needsB (normalizeTierResult rawA) = false →
      ∀ rB rB2 : TierOutcome, step (Except.ok rawA) rB job = step (Except.ok rawA) rB2 job) ∧
    ((mergeResults (normalizeTierResult rawA) (normalizeTierResult rawB)).fieldsMapped =
      specMergeAxis ((normalizeTierResult rawA).map fun x => x.fieldsMapped)
        ((normalizeTierResult rawB).map fun x => x.fieldsMapped)) ∧
    ((mergeResults (normalizeTierResult rawA) (normalizeTierResult rawB)).attributesMapped =
      specMergeAxis ((normalizeTierResult rawA).map fun x => x.attributesMapped)
        ((normalizeTierResult rawB).map fun x => x.attributesMapped)) ∧
    (∀ a, normalizeTierResult rawA = some a → a.fieldsMapped = "yes" →
      ∀ t, (step (Except.ok rawA) (Except.ok rawB) job).reports[job.cursor]? = some t →
        t.fieldsMapped = MapVal.yes) ∧
    (∀ a, normalizeTierResult rawA = some a → a.attributesMapped = "yes" →
      ∀ t, (step (Except.ok rawA) (Except.ok rawB) job).reports[job.cursor]? = some t →
        t.attributesMapped = MapVal.yes) := by
  obtain ⟨r, hget⟩ : ∃ r, job.reports[job.cursor]? = some r := by
    rw [List.getElem?_eq_getElem hcur]
    exact ⟨_, rfl⟩
  refine ⟨?_, ?_, ?_, ?_, ?_, ?_⟩
  · cases hA0 : normalizeTierResult rawA with
    | none => simp [needsB]
    | some a0 =>
      simp only [hA0, Option.some.injEq]
      show (!(axisConclusive a0.fieldsMapped && axisConclusive a0.attributesMapped)) = true ↔ _
      constructor
      · intro hn hex
        obtain ⟨a, ha, hc1, hc2⟩ := hex
        subst ha
        rw [hc1, hc2] at hn
        cases hn
      · intro hnex
        cases h1 : axisConclusive a0.fieldsMapped with
        | false => simp [h1]
        | true =>
          cases h2 : axisConclusive a0.attributesMapped with
          | false => simp [h1, h2]
          | true => exact absurd ⟨a0, rfl, h1, h2⟩ hnex
  · intro hnb rB rB2
    rw [step_ok_eq hrun hget, step_ok_eq hrun hget, if_neg (by simp [hnb]),
      if_neg (by simp [hnb])]
  · cases hA0 : normalizeTierResult rawA with
    | none => simp [mergeResults, specMergeAxis]
    | some a0 =>
      have hax : axisInRange a0.fieldsMapped = true := by
        rw [hA0] at hA
        exact (Bool.and_eq_true _ _ |>.mp hA).1
      rcases axisInRange_cases hax with hv | hv | hv <;>
        simp [mergeResults, specMergeAxis, hv]
  · cases hA0 : normalizeTierResult rawA with
    | none => simp [mergeResults, specMergeAxis]
    | some a0 =>
      have hax : axisInRange a0.attributesMapped = true := by
        rw [hA0] at hA
        exact (Bool.and_eq_true _ _ |>.mp hA).2
      rcases axisInRange_cases hax with hv | hv | hv <;>
        simp [mergeResults, specMergeAxis, hv]
  · intro a ha hy t ht
    rw [step_ok_eq hrun hget] at ht
    by_cases hb : needsB (normalizeTierResult rawA) = true
    · rw [if_pos hb, applyResult_task _ _ _ hcur] at ht
      cases ht
      show terminalizeOpt
          (some (mergeResults (normalizeTierResult rawA) (normalizeTierResult rawB)).fieldsMapped) =
        MapVal.yes
      have hm : (mergeResults (normalizeTierResult rawA)
          (normalizeTierResult rawB)).fieldsMapped = "yes" := by
        rw [ha]
        simp [mergeResults, hy]
      rw [hm]
      rfl
    · rw [if_neg hb, applyResult_task _ _ _ hcur] at ht
      cases ht
      show terminalizeOpt ((normalizeTierResult rawA).map fun x => x.fieldsMapped) = MapVal.yes
      rw [ha]
      show terminalizeOpt (some a.fieldsMapped) = MapVal.yes
      rw [hy]
      rfl
  · intro a ha hy t ht
    rw [step_ok_eq hrun hget] at ht
    by_cases hb : needsB (normalizeTierResult rawA) = true
    · rw [if_pos hb, applyResult_task _ _ _ hcur] at ht
      cases ht
      show terminalizeOpt
          (some (mergeResults (normalizeTierResult rawA)
            (normalizeTierResult rawB)).attributesMapped) =
        MapVal.yes
      have hm : (mergeResults (normalizeTierResult rawA)
          (normalizeTierResult rawB)).attributesMapped = "yes" := by
        rw [ha]
        simp [mergeResults, hy]
      rw [hm]
      rfl
    · rw [if_neg hb, applyResult_task _ _ _ hcur] at ht
      cases ht
      show terminalizeOpt ((normalizeTierResult rawA).map fun x => x.attributesMapped) = MapVal.yes
      rw [ha]
      show terminalizeOpt (some a.attributesMapped) = MapVal.yes
      rw [hy]
      rfl

/-- Tier A answer with a conclusive fields axis and a pending attributes
axis, a concrete input for the merge scenario. -/
def mergeDemoA : RawTierResult :=
  { fieldsMapped := some "yes", attributesMapped := some "pending", located := none,
    mapped := none, locatedSource := some "db", mappedCount := some 1, totalFields := some 4,
    message := none }

/-- Tier B answer, conclusive on both axes. -/
def mergeDemoB : RawTierResult :=
  { fieldsMapped := some "no", attributesMapped := some "no", located := none,
    mapped := none, locatedSource := some "ai", mappedCount := some 0, totalFields := some 0,
    message := none }

/-- C4 witness: the merge theorem applied at a concrete running job and
the concrete tier answers above; the code merge of the fields axis equals
the spec-worded merge. -/
theorem step_tiered_merge_witness :
    conformsTierContract (normalizeTierResult (some mergeDemoA)) = true ∧
    (mergeResults (normalizeTierResult (some mergeDemoA))
        (normalizeTierResult (some mergeDemoB))).fieldsMapped =
      specMergeAxis ((normalizeTierResult (some mergeDemoA)).map fun x => x.fieldsMapped)
        ((normalizeTierResult (some mergeDemoB)).map fun x => x.fieldsMapped) :=
  ⟨by decide,
    (step_tiered_merge (seedJob 0 ["k"]) (some mergeDemoA) (some mergeDemoB) rfl (by decide)
      (by decide) (by decide)).2.2.1⟩

theorem looksLikeMatch_iff (files : List UploadedFile) (k : String) (hn : Option String) :
    looksLikeMatch files k hn = true ↔
      ∃ f ∈ files,
        strIncludes (uploadedName f) k.toLower = true ∨
          ((orFalsyStr hn "").toLower ≠ "" ∧
            strIncludes (uploadedName f) ((orFalsyStr hn "").toLower) = true) := by
  unfold looksLikeMatch
  rw [List.any_eq_true]
  constructor
  · rintro ⟨f, hf, hp⟩
    refine ⟨f, hf, ?_⟩
    rcases Bool.or_eq_true _ _ |>.mp hp with h | h
    · exact Or.inl h
    · obtain ⟨h1, h2⟩ := Bool.and_eq_true _ _ |>.mp h
      exact Or.inr ⟨of_decide_eq_true h1, h2⟩
  · rintro ⟨f, hf, hp⟩
    refine ⟨f, hf, ?_⟩
    rcases hp with h | ⟨h1, h2⟩
    · exact Bool.or_eq_true _ _ |>.mpr (Or.inl h)
    · exact Bool.or_eq_true _ _ |>.mpr (Or.inr (Bool.and_eq_true _ _ |>.mpr
        ⟨decide_eq_true h1, h2⟩))

/-- C9: Tier A's rule pass declares the fields axis `yes` exactly when
some uploaded file name contains, case-insensitively, the report key or
the report's (truthy) human name looked up from the reference dataset;
it declares the attributes axis `yes` exactly when the fields axis is
`yes` and a non-empty field specification exists for the key; and
`totalFields` reports the specification's field count. -/
theorem locateAndMap_rule_semantics (files : List UploadedFile) (d : DB)
    (reportKey : String) :
    ((locateAndMap files (some d) reportKey).located = some "yes" ↔
      ∃ f ∈ files,
        strIncludes (uploadedName f) reportKey.toLower = true ∨
          ((orFalsyStr (findReportMeta (some d) reportKey).humanName "").toLower ≠ "" ∧
            strIncludes (uploadedName f)
              ((orFalsyStr (findReportMeta (some d) reportKey).humanName "").toLower) = true)) ∧
    ((locateAndMap files (some d) reportKey).mapped = some "yes" ↔
      ((locateAndMap files (some d) reportKey).located = some "yes" ∧
        ∃ fl, d.system_data.report_field_specs.lookup reportKey = some fl ∧ fl ≠ [])) ∧
    ((locateAndMap files (some d) reportKey).totalFields =
      some ((((d.system_data.report_field_specs.lookup reportKey).map List.length).getD 0 :
        Nat) : Int)) := by
  have hloc : (locateAndMap files (some d) reportKey).located =
      some (if looksLikeMatch files reportKey (findReportMeta (some d) reportKey).humanName
        then "yes" else "no") := rfl
  have hmap : (locateAndMap files (some d) reportKey).mapped =
      some (if looksLikeMatch files reportKey (findReportMeta (some d) reportKey).humanName &&
          decide (0 < (findReportMeta (some d) reportKey).totalFields)
        then "yes" else "no") := rfl
  have hsome : ∀ b : Bool,
      (some (if b then "yes" else "no") : Option String) = some "yes" ↔ b = true := by
    intro b
    cases b <;> simp
  have htf : (findReportMeta (some d) reportKey).totalFields =
      ((d.system_data.report_field_specs.lookup reportKey).map List.length).getD 0 := rfl
  have hnonempty : 0 < (findReportMeta (some d) reportKey).totalFields ↔
      ∃ fl, d.system_data.report_field_specs.lookup reportKey = some fl ∧ fl ≠ [] := by
    rw [htf]
    cases hlk : d.system_data.report_field_specs.lookup reportKey with
    | none => simp
    | some fl => simp [List.length_pos]
  refine ⟨?_, ?_, rfl⟩
  · rw [hloc, hsome]
    exact looksLikeMatch_iff files reportKey (findReportMeta (some d) reportKey).humanName
  · rw [hmap, hloc, hsome, hsome, Bool.and_eq_true]
    constructor
    · rintro ⟨h1, h2⟩
      exact ⟨h1, hnonempty.mp (of_decide_eq_true h2)⟩
    · rintro ⟨h1, h2⟩
      exact ⟨h1, decide_eq_true (hnonempty.mpr h2)⟩

end ApexDetection
